import Mathlib

set_option maxRecDepth 4000

/-!
Shallow embedding of the pesakit resilience core (rate limiter, circuit
breaker, secure cache, metrics collector) and proofs about it.

Numbers: JavaScript numbers are modelled as `ℚ` (all quantities occurring
here — timestamps in ms, token counts, TTLs — are exact in the source's
arithmetic on the inputs considered). `Math.floor` is `Int.floor`,
`Math.ceil` is `Int.ceil`, `Math.min`/`Math.max` are `min`/`max`.
Key/value maps (`Map` objects in the source) are association lists.
-/

namespace Pesakit

/-- Association-list lookup, standing for `Map.prototype.get`. -/
def alookup {β : Type} (k : String) : List (String × β) → Option β
  | [] => none
  | (k', v) :: rest => if k' = k then some v else alookup k rest

/-- Association-list update/insert, standing for `Map.prototype.set`. -/
def aset {β : Type} (k : String) (v : β) : List (String × β) → List (String × β)
  | [] => [(k, v)]
  | (k', v') :: rest => if k' = k then (k, v) :: rest else (k', v') :: aset k v rest

/-- Association-list removal, standing for `Map.prototype.delete`. -/
def adel {β : Type} (k : String) : List (String × β) → List (String × β)
  | [] => []
  | (k', v') :: rest => if k' = k then rest else (k', v') :: adel k rest

/-! ## TokenBucket (src/lib/errors.js lines 88-129, the rate-limiter half) -/

/-- State of `class TokenBucket`. -/
structure TokenBucket where
  capacity : ℚ
  tokens : ℚ
  refillRate : ℚ
  refillPeriod : ℚ
  lastRefill : ℚ
  deriving Repr, DecidableEq

namespace TokenBucket

/-- `constructor(capacity, refillRate, refillPeriod = 1000)`; `now` stands for
`Date.now()`. -/
def make (capacity refillRate : ℚ) (refillPeriod : ℚ := 1000) (now : ℚ := 0) :
    TokenBucket :=
  { capacity := capacity
    tokens := capacity
    refillRate := refillRate
    refillPeriod := refillPeriod
    lastRefill := now }

/-- `refill()`: lazily add `Math.floor((timePassed / refillPeriod) * refillRate)`
tokens, capped at `capacity`; the clock is advanced only when at least one
token is added. -/
def refill (now : ℚ) (b : TokenBucket) : TokenBucket :=
  let timePassed := now - b.lastRefill
  let tokensToAdd : ℤ := ⌊timePassed / b.refillPeriod * b.refillRate⌋
  if 0 < tokensToAdd then
    { b with tokens := min b.capacity (b.tokens + tokensToAdd), lastRefill := now }
  else
    b

/-- `consume(tokens = 1)`: refill, then debit when enough tokens are held.
Returns the boolean result together with the mutated bucket. -/
def consume (now : ℚ) (cost : ℚ) (b : TokenBucket) : Bool × TokenBucket :=
  let b := refill now b
  if cost ≤ b.tokens then (true, { b with tokens := b.tokens - cost })
  else (false, b)

/-- `getAvailableTokens()`: refills (mutating the bucket), then reads `tokens`. -/
def getAvailableTokens (now : ℚ) (b : TokenBucket) : ℚ × TokenBucket :=
  let b := refill now b
  (b.tokens, b)

/-- `getTimeUntilRefill()` (no mutation). -/
def getTimeUntilRefill (now : ℚ) (b : TokenBucket) : ℚ :=
  max 0 (b.refillPeriod - (now - b.lastRefill))

end TokenBucket

/-- One externally triggered bucket operation: a `consume(cost)` call or a bare
`refill()` call, each at a wall-clock instant `now`. -/
inductive BucketOp where
  | consume (now : ℚ) (cost : ℚ)
  | refill (now : ℚ)
  deriving Repr, DecidableEq

/-- Effect of a `BucketOp` on the bucket state. -/
def applyBucketOp (b : TokenBucket) : BucketOp → TokenBucket
  | .consume now cost => (TokenBucket.consume now cost b).2
  | .refill now => TokenBucket.refill now b

/-- Nonnegative cost of a `BucketOp` (a bare refill imposes no cost). -/
def BucketOp.costNonneg : BucketOp → Prop
  | .consume _ cost => 0 ≤ cost
  | .refill _ => True

lemma refill_capacity (now : ℚ) (b : TokenBucket) :
    (TokenBucket.refill now b).capacity = b.capacity := by
  unfold TokenBucket.refill
  dsimp only
  split <;> rfl

lemma refill_invariant (now : ℚ) (b : TokenBucket)
    (h : 0 ≤ b.tokens ∧ b.tokens ≤ b.capacity) :
    0 ≤ (TokenBucket.refill now b).tokens ∧
      (TokenBucket.refill now b).tokens ≤ (TokenBucket.refill now b).capacity := by
  unfold TokenBucket.refill
  dsimp only
  split
  · rename_i hpos
    constructor
    · have h0 : (0 : ℚ) ≤ b.tokens + (⌊(now - b.lastRefill) / b.refillPeriod * b.refillRate⌋ : ℤ) := by
        have : (0 : ℚ) ≤ (⌊(now - b.lastRefill) / b.refillPeriod * b.refillRate⌋ : ℤ) := by
          exact_mod_cast le_of_lt hpos
        linarith [h.1]
      have hcap : 0 ≤ b.capacity := le_trans h.1 h.2
      exact le_min hcap h0
    · exact min_le_left _ _
  · exact h

lemma consume_invariant (now cost : ℚ) (b : TokenBucket)
    (hc : 0 ≤ cost) (h : 0 ≤ b.tokens ∧ b.tokens ≤ b.capacity) :
    0 ≤ (TokenBucket.consume now cost b).2.tokens ∧
      (TokenBucket.consume now cost b).2.tokens ≤ (TokenBucket.consume now cost b).2.capacity := by
  unfold TokenBucket.consume
  have h' := refill_invariant now b h
  dsimp only
  split
  · rename_i hle
    constructor
    · dsimp only
      linarith
    · dsimp only
      linarith [h'.2]
  · exact h'

lemma applyBucketOp_invariant (b : TokenBucket) (op : BucketOp)
    (hop : op.costNonneg) (h : 0 ≤ b.tokens ∧ b.tokens ≤ b.capacity) :
    0 ≤ (applyBucketOp b op).tokens ∧
      (applyBucketOp b op).tokens ≤ (applyBucketOp b op).capacity := by
  cases op with
  | consume now cost => exact consume_invariant now cost b hop h
  | refill now => exact refill_invariant now b h

lemma foldl_applyBucketOp_invariant (ops : List BucketOp) (b : TokenBucket)
    (hops : ∀ op ∈ ops, op.costNonneg)
    (h : 0 ≤ b.tokens ∧ b.tokens ≤ b.capacity) :
    0 ≤ (ops.foldl applyBucketOp b).tokens ∧
      (ops.foldl applyBucketOp b).tokens ≤ (ops.foldl applyBucketOp b).capacity := by
  induction ops generalizing b with
  | nil => exact h
  | cons op rest ih =>
    have h1 := applyBucketOp_invariant b op (hops op (by simp)) h
    exact ih (applyBucketOp b op) (fun o ho => hops o (by simp [ho])) h1

/-- C4: For every sequence of consume and refill calls on a TokenBucket starting
from construction (with a nonnegative capacity and nonnegative consume costs),
the `tokens` field always satisfies `0 ≤ tokens ≤ capacity`: `consume` debits
only when enough tokens are held, and the lazy `refill` adds
`⌊elapsed / refillPeriod * refillRate⌋` tokens capped at `capacity`. -/
theorem tokenBucket_invariant (capacity refillRate refillPeriod t0 : ℚ)
    (ops : List BucketOp)
    (hcap : 0 ≤ capacity)
    (hops : ∀ op ∈ ops, op.costNonneg) :
    0 ≤ (ops.foldl applyBucketOp (TokenBucket.make capacity refillRate refillPeriod t0)).tokens ∧
      (ops.foldl applyBucketOp (TokenBucket.make capacity refillRate refillPeriod t0)).tokens ≤
        (ops.foldl applyBucketOp (TokenBucket.make capacity refillRate refillPeriod t0)).capacity := by
  exact foldl_applyBucketOp_invariant ops _ hops ⟨hcap, le_refl _⟩

/-- Witness for `tokenBucket_invariant` at a concrete bucket and operation
sequence. -/
theorem tokenBucket_invariant_witness :
    0 ≤ (([BucketOp.consume 0 4, BucketOp.refill 1500,
        BucketOp.consume 2000 7, BucketOp.consume 2100 2]).foldl applyBucketOp
        (TokenBucket.make 10 1 1000 0)).tokens ∧
      (([BucketOp.consume 0 4, BucketOp.refill 1500,
        BucketOp.consume 2000 7, BucketOp.consume 2100 2]).foldl applyBucketOp
        (TokenBucket.make 10 1 1000 0)).tokens ≤
        (([BucketOp.consume 0 4, BucketOp.refill 1500,
        BucketOp.consume 2000 7, BucketOp.consume 2100 2]).foldl applyBucketOp
        (TokenBucket.make 10 1 1000 0)).capacity :=
  tokenBucket_invariant 10 1 1000 0 _ (by norm_num)
    (by intro op hop; fin_cases hop <;> simp [BucketOp.costNonneg])

/-! ## Error objects (src/lib/errors.js lines 5-70, duck-typed per the source) -/

/-- A JavaScript error value as the source observes it: the `PesakitError`
fields (`name`, `message`, `code`, `statusCode`), the duck-typed
`error.response?.status` probed by the classifier (`respStatus`), and the
`details` payload fields used by the claims. Absent fields are `none`. -/
structure JsError where
  name : String := "Error"
  message : String := ""
  code : Option String := none
  statusCode : Option ℕ := none
  respStatus : Option ℕ := none
  detailState : Option String := none
  detailNextAttempt : Option ℚ := none
  detailOriginalError : Option String := none
  detailCode : Option String := none
  detailStatusCode : Option ℕ := none
  detailAvailableTokens : Option ℚ := none
  detailTimeUntilRefill : Option ℚ := none
  detailRetryAfter : Option ℤ := none
  detailRequestCount : Option ℕ := none
  detailResetTime : Option ℚ := none
  deriving Repr, DecidableEq

/-- `class RateLimitError`: code `RATE_LIMIT_ERROR`, HTTP status 429. -/
def rateLimitError (message : String) : JsError :=
  { name := "RateLimitError", message := message,
    code := some "RATE_LIMIT_ERROR", statusCode := some 429 }

/-- `class NetworkError`: code `NETWORK_ERROR`, HTTP status 503. -/
def networkError (message : String) : JsError :=
  { name := "NetworkError", message := message,
    code := some "NETWORK_ERROR", statusCode := some 503 }

/-- `class ConfigurationError`: code `CONFIGURATION_ERROR`, HTTP status 500. -/
def configurationError (message : String) : JsError :=
  { name := "ConfigurationError", message := message,
    code := some "CONFIGURATION_ERROR", statusCode := some 500 }

/-! ## RateLimiter (src/lib/errors.js lines 134-401) -/

/-- Result object returned by a successful `isAllowed` (`{allowed: true, ...}`);
the strategy-specific quota fields are optional. -/
structure AllowResult where
  allowed : Bool := true
  remainingTokens : Option ℚ := none
  remainingRequests : Option ℚ := none
  resetTime : Option ℚ := none
  deriving Repr, DecidableEq

/-- Per-window data of the fixed-window strategy (`{count, resetTime}`). -/
structure FixedWindowData where
  count : ℕ
  resetTime : ℚ
  deriving Repr, DecidableEq

/-- State of `class RateLimiter`. The source keys `fixedWindows` by the string
`` `${key}:${windowStart}` ``; the model keys it by the pair
`(key, windowStart)`, which the string encodes. -/
structure RateLimiter where
  strategy : String := "token-bucket"
  requests : ℚ := 100
  window : ℚ := 60000
  burst : ℚ := 10
  buckets : List (String × TokenBucket) := []
  slidingWindows : List (String × List ℚ) := []
  fixedWindows : List ((String × ℚ) × FixedWindowData) := []
  deriving Repr, DecidableEq

namespace RateLimiter

/-- Lookup in the pair-keyed fixed-window map. -/
def fwLookup (k : String × ℚ) : List ((String × ℚ) × FixedWindowData) →
    Option FixedWindowData
  | [] => none
  | (k', v) :: rest => if k' = k then some v else fwLookup k rest

/-- Update/insert in the pair-keyed fixed-window map. -/
def fwSet (k : String × ℚ) (v : FixedWindowData) :
    List ((String × ℚ) × FixedWindowData) → List ((String × ℚ) × FixedWindowData)
  | [] => [(k, v)]
  | (k', v') :: rest => if k' = k then (k, v) :: rest else (k', v') :: fwSet k v rest

/-- `tokenBucketCheck(key, tokens)`: create the bucket on first use with
`new TokenBucket(burst, requests / (window / 1000))`, consume, and either
return the allowed result or throw `RateLimitError` with quota details.
All bucket mutations (including the refills performed while building the
result/details) are stored back. -/
def tokenBucketCheck (now : ℚ) (key : String) (cost : ℚ) (rl : RateLimiter) :
    Except JsError AllowResult × RateLimiter :=
  let bucket :=
    match alookup key rl.buckets with
    | some b => b
    | none => TokenBucket.make rl.burst (rl.requests / (rl.window / 1000)) 1000 now
  let (allowed, bucket) := TokenBucket.consume now cost bucket
  if allowed then
    let (avail, bucket) := TokenBucket.getAvailableTokens now bucket
    (.ok { allowed := true, remainingTokens := some avail,
           resetTime := some (now + TokenBucket.getTimeUntilRefill now bucket) },
     { rl with buckets := aset key bucket rl.buckets })
  else
    let timeUntilRefill := TokenBucket.getTimeUntilRefill now bucket
    let (avail, bucket) := TokenBucket.getAvailableTokens now bucket
    (.error { rateLimitError "Rate limit exceeded" with
        detailAvailableTokens := some avail,
        detailTimeUntilRefill := some timeUntilRefill,
        detailRetryAfter := some ⌈timeUntilRefill / 1000⌉ },
     { rl with buckets := aset key bucket rl.buckets })

/-- `slidingWindowCheck(key)`: prune timestamps older than `now - window` from
the front, reject when the limit is reached, otherwise record `now`. -/
def slidingWindowCheck (now : ℚ) (key : String) (rl : RateLimiter) :
    Except JsError AllowResult × RateLimiter :=
  let times :=
    match alookup key rl.slidingWindows with
    | some ts => ts
    | none => []
  let cutoff := now - rl.window
  let times := times.dropWhile (fun t => t < cutoff)
  if rl.requests ≤ (times.length : ℚ) then
    (.error { rateLimitError "Rate limit exceeded" with
        detailRequestCount := some times.length,
        detailResetTime := times.head?.map (fun t => t + rl.window),
        detailRetryAfter := (times.head?.map
          (fun t => ⌈(t + rl.window - now) / 1000⌉)) },
     { rl with slidingWindows := aset key times rl.slidingWindows })
  else
    let times := times ++ [now]
    (.ok { allowed := true,
           remainingRequests := some (rl.requests - times.length),
           resetTime := times.head?.map (fun t => t + rl.window) },
     { rl with slidingWindows := aset key times rl.slidingWindows })

/-- `cleanupFixedWindows(now)`: drop windows whose `resetTime` has passed. -/
def cleanupFixedWindows (now : ℚ) (fw : List ((String × ℚ) × FixedWindowData)) :
    List ((String × ℚ) × FixedWindowData) :=
  fw.filter (fun e => decide (now < e.2.resetTime))

/-- `fixedWindowCheck(key)`: one counter per `(key, windowStart)`; sweep expired
windows when a new window is first touched. -/
def fixedWindowCheck (now : ℚ) (key : String) (rl : RateLimiter) :
    Except JsError AllowResult × RateLimiter :=
  let windowStart := (⌊now / rl.window⌋ : ℚ) * rl.window
  let wkey := (key, windowStart)
  let fw :=
    match fwLookup wkey rl.fixedWindows with
    | some _ => rl.fixedWindows
    | none =>
      cleanupFixedWindows now
        (fwSet wkey { count := 0, resetTime := windowStart + rl.window } rl.fixedWindows)
  match fwLookup wkey fw with
  | none =>
    -- unreachable when `window > 0`: the freshly created window has
    -- `resetTime = windowStart + window > now` and survives the sweep
    (.error (rateLimitError "Rate limit exceeded"), { rl with fixedWindows := fw })
  | some wd =>
    if rl.requests ≤ (wd.count : ℚ) then
      (.error { rateLimitError "Rate limit exceeded" with
          detailRequestCount := some wd.count,
          detailResetTime := some wd.resetTime,
          detailRetryAfter := some ⌈(wd.resetTime - now) / 1000⌉ },
       { rl with fixedWindows := fw })
    else
      (.ok { allowed := true,
             remainingRequests := some (rl.requests - (wd.count + 1 : ℕ)),
             resetTime := some wd.resetTime },
       { rl with fixedWindows := fwSet wkey { wd with count := wd.count + 1 } fw })

/-- `isAllowed(key, tokens = 1)`: dispatch on the strategy string; any other
strategy throws `RateLimitError` naming the unknown strategy. -/
def isAllowed (now : ℚ) (key : String) (cost : ℚ) (rl : RateLimiter) :
    Except JsError AllowResult × RateLimiter :=
  if rl.strategy = "token-bucket" then tokenBucketCheck now key cost rl
  else if rl.strategy = "sliding-window" then slidingWindowCheck now key rl
  else if rl.strategy = "fixed-window" then fixedWindowCheck now key rl
  else (.error (rateLimitError ("Unknown rate limiting strategy: " ++ rl.strategy)), rl)

/-- Status object returned by `getStatus`, one shape per strategy. -/
inductive RLStatus where
  | tokenBucket (availableTokens capacity timeUntilRefill : ℚ)
  | slidingWindow (requestCount : ℕ) (limit remainingRequests : ℚ)
      (resetTime : Option ℚ)
  | fixedWindow (requestCount : ℕ) (limit remainingRequests resetTime : ℚ)
  deriving Repr, DecidableEq

/-- `getStatus(key)`: report current availability. Returned together with the
post-call limiter state, because the token-bucket branch calls
`bucket.getAvailableTokens()`, whose lazy refill mutates the stored bucket. -/
def getStatus (now : ℚ) (key : String) (rl : RateLimiter) :
    Option RLStatus × RateLimiter :=
  if rl.strategy = "token-bucket" then
    match alookup key rl.buckets with
    | none => (some (.tokenBucket 0 rl.burst 0), rl)
    | some bucket =>
      let (avail, bucket) := TokenBucket.getAvailableTokens now bucket
      (some (.tokenBucket avail bucket.capacity
        (TokenBucket.getTimeUntilRefill now bucket)),
       { rl with buckets := aset key bucket rl.buckets })
  else if rl.strategy = "sliding-window" then
    match alookup key rl.slidingWindows with
    | none => (none, rl)
    | some times =>
      let cutoff := now - rl.window
      let active := times.filter (fun t => decide (cutoff < t))
      (some (.slidingWindow active.length rl.requests
        (rl.requests - active.length)
        (active.head?.map (fun t => t + rl.window))), rl)
  else if rl.strategy = "fixed-window" then
    let windowStart := (⌊now / rl.window⌋ : ℚ) * rl.window
    match fwLookup (key, windowStart) rl.fixedWindows with
    | none =>
      (some (.fixedWindow 0 rl.requests rl.requests (windowStart + rl.window)), rl)
    | some wd =>
      (some (.fixedWindow wd.count rl.requests (rl.requests - wd.count)
        wd.resetTime), rl)
  else (none, rl)

end RateLimiter

/-- A concrete limiter used to exercise `getStatus`: token-bucket strategy,
1 request per 1000 ms window, burst 10. -/
def rlTB : RateLimiter :=
  { strategy := "token-bucket", requests := 1, window := 1000, burst := 10 }

/-- The limiter after its bucket for key `"k"` was created and drained by
`isAllowed("k", 10)` at time 0. -/
def rlDrained : RateLimiter := (RateLimiter.isAllowed 0 "k" 10 rlTB).2

/-- C6 counterexample: with the unknown strategy `"round-robin"`, the first
`isAllowed` call throws a `RateLimitError` (code `RATE_LIMIT_ERROR`, HTTP 429),
not a `ConfigurationError` (code `CONFIGURATION_ERROR`, HTTP 500) as the claim
states. -/
theorem isAllowed_unknown_strategy_not_configurationError :
    (RateLimiter.isAllowed 0 "k" 1 { strategy := "round-robin" }).1 =
      .error (rateLimitError "Unknown rate limiting strategy: round-robin") ∧
    (rateLimitError "Unknown rate limiting strategy: round-robin").name ≠
      "ConfigurationError" ∧
    (rateLimitError "Unknown rate limiting strategy: round-robin").code ≠
      some "CONFIGURATION_ERROR" ∧
    (rateLimitError "Unknown rate limiting strategy: round-robin").statusCode ≠
      some 500 := by
  refine ⟨by rfl, by decide, by decide, by decide⟩

/-- C6 amended: for every RateLimiter constructed with a strategy string that is
none of `token-bucket`, `sliding-window`, `fixed-window`, the first `isAllowed`
call fails fast with a `RateLimitError` (code `RATE_LIMIT_ERROR`) whose message
names the unknown strategy, leaving the limiter state unchanged. -/
theorem isAllowed_unknown_strategy_rateLimitError (now : ℚ) (key : String)
    (cost : ℚ) (rl : RateLimiter)
    (h1 : rl.strategy ≠ "token-bucket")
    (h2 : rl.strategy ≠ "sliding-window")
    (h3 : rl.strategy ≠ "fixed-window") :
    RateLimiter.isAllowed now key cost rl =
      (.error (rateLimitError ("Unknown rate limiting strategy: " ++ rl.strategy)), rl) := by
  unfold RateLimiter.isAllowed
  simp [h1, h2, h3]

/-- Witness for `isAllowed_unknown_strategy_rateLimitError` at the concrete
strategy `"round-robin"`. -/
theorem isAllowed_unknown_strategy_rateLimitError_witness :
    RateLimiter.isAllowed 0 "k" 1 { strategy := "round-robin" } =
      (.error (rateLimitError "Unknown rate limiting strategy: round-robin"),
        { strategy := "round-robin" }) :=
  isAllowed_unknown_strategy_rateLimitError 0 "k" 1 { strategy := "round-robin" }
    (by decide) (by decide) (by decide)

lemma rlDrained_eval :
    rlDrained = { rlTB with buckets := [("k", ⟨10, 0, 1, 1000, 0⟩)] } := by
  unfold rlDrained rlTB RateLimiter.isAllowed RateLimiter.tokenBucketCheck
  norm_num [alookup, aset, TokenBucket.make, TokenBucket.consume,
    TokenBucket.refill, TokenBucket.getAvailableTokens,
    TokenBucket.getTimeUntilRefill]

lemma getStatus_1500_eval :
    (RateLimiter.getStatus 1500 "k" rlDrained).2 =
      { rlTB with buckets := [("k", ⟨10, 1, 1, 1000, 1500⟩)] } := by
  rw [rlDrained_eval]
  unfold RateLimiter.getStatus
  norm_num [rlTB, alookup, aset, TokenBucket.getAvailableTokens, TokenBucket.refill]

lemma getStatus_2000_after_eval :
    (RateLimiter.getStatus 2000 "k" (RateLimiter.getStatus 1500 "k" rlDrained).2).1 =
      some (.tokenBucket 1 10 500) := by
  rw [getStatus_1500_eval]
  unfold RateLimiter.getStatus
  norm_num [rlTB, alookup, aset, TokenBucket.getAvailableTokens, TokenBucket.refill,
    TokenBucket.getTimeUntilRefill]

lemma getStatus_2000_direct_eval :
    (RateLimiter.getStatus 2000 "k" rlDrained).1 =
      some (.tokenBucket 2 10 1000) := by
  rw [rlDrained_eval]
  unfold RateLimiter.getStatus
  norm_num [rlTB, alookup, aset, TokenBucket.getAvailableTokens, TokenBucket.refill,
    TokenBucket.getTimeUntilRefill]

/-- C9 counterexample: under the token-bucket strategy, a `getStatus` call is
observable by later calls. With the bucket drained by `isAllowed("k", 10)` at
t=0, calling `getStatus` at t=1500 commits one refilled token and resets the
bucket clock, so a `getStatus` at t=2000 reports 1 available token; without
the intervening call it reports 2. -/
theorem getStatus_mutates_tokenBucket_state :
    (RateLimiter.getStatus 2000 "k" (RateLimiter.getStatus 1500 "k" rlDrained).2).1 ≠
      (RateLimiter.getStatus 2000 "k" rlDrained).1 := by
  rw [getStatus_2000_after_eval, getStatus_2000_direct_eval]
  intro h
  have h' := Option.some.inj h
  cases h'

/-- C9 amended: `getStatus(key)` leaves the limiter state unchanged under the
sliding-window and fixed-window strategies (and under any unknown strategy);
under the token-bucket strategy it invokes the stored bucket's lazy refill,
which can advance the bucket clock and change what subsequent `isAllowed` or
`getStatus` calls observe. -/
theorem getStatus_pure_of_not_tokenBucket (now : ℚ) (key : String)
    (rl : RateLimiter) (h : rl.strategy ≠ "token-bucket") :
    (RateLimiter.getStatus now key rl).2 = rl := by
  unfold RateLimiter.getStatus
  simp only [h, if_false]
  split
  · split <;> rfl
  · split
    · split <;> rfl
    · rfl

/-- Witness for `getStatus_pure_of_not_tokenBucket` at a concrete
sliding-window limiter. -/
theorem getStatus_pure_of_not_tokenBucket_witness :
    (RateLimiter.getStatus 5 "k"
      { strategy := "sliding-window", slidingWindows := [("k", [1, 2])] }).2 =
      { strategy := "sliding-window", slidingWindows := [("k", [1, 2])] } :=
  getStatus_pure_of_not_tokenBucket 5 "k"
    { strategy := "sliding-window", slidingWindows := [("k", [1, 2])] } (by decide)

/-- C10: under the token-bucket strategy, for a key with no bucket yet,
`getStatus` reports `availableTokens = 0` with `capacity = burst`, even though
the first `isAllowed` call for that key creates a bucket holding a full burst
of tokens and is therefore allowed (whenever the requested cost is at most the
burst). -/
theorem getStatus_fresh_key_zero_but_first_isAllowed_allowed
    (now now' : ℚ) (key : String) (cost : ℚ) (rl : RateLimiter)
    (hstrat : rl.strategy = "token-bucket")
    (hfresh : alookup key rl.buckets = none)
    (hcost : cost ≤ rl.burst) :
    (RateLimiter.getStatus now key rl).1 = some (.tokenBucket 0 rl.burst 0) ∧
    ∃ res, (RateLimiter.isAllowed now' key cost rl).1 = .ok res ∧
      res.allowed = true ∧ res.remainingTokens = some (rl.burst - cost) := by
  constructor
  · unfold RateLimiter.getStatus
    simp [hstrat, hfresh]
  · unfold RateLimiter.isAllowed RateLimiter.tokenBucketCheck
    simp only [hstrat, if_true, hfresh]
    have hrefill : TokenBucket.refill now'
        (TokenBucket.make rl.burst (rl.requests / (rl.window / 1000)) 1000 now') =
        TokenBucket.make rl.burst (rl.requests / (rl.window / 1000)) 1000 now' := by
      unfold TokenBucket.refill TokenBucket.make
      norm_num
    have hconsume : TokenBucket.consume now' cost
        (TokenBucket.make rl.burst (rl.requests / (rl.window / 1000)) 1000 now') =
        (true, { TokenBucket.make rl.burst (rl.requests / (rl.window / 1000)) 1000 now'
          with tokens := rl.burst - cost }) := by
      unfold TokenBucket.consume
      rw [hrefill]
      simp [TokenBucket.make, hcost]
    rw [hconsume]
    have hrefill2 : TokenBucket.refill now'
        { TokenBucket.make rl.burst (rl.requests / (rl.window / 1000)) 1000 now'
          with tokens := rl.burst - cost } =
        { TokenBucket.make rl.burst (rl.requests / (rl.window / 1000)) 1000 now'
          with tokens := rl.burst - cost } := by
      unfold TokenBucket.refill TokenBucket.make
      norm_num
    simp [TokenBucket.getAvailableTokens, hrefill2]

/-- Witness for `getStatus_fresh_key_zero_but_first_isAllowed_allowed` at a
concrete fresh limiter. -/
theorem getStatus_fresh_key_witness :
    (RateLimiter.getStatus 7 "new" rlTB).1 = some (.tokenBucket 0 rlTB.burst 0) ∧
    ∃ res, (RateLimiter.isAllowed 7 "new" 1 rlTB).1 = .ok res ∧
      res.allowed = true ∧ res.remainingTokens = some (rlTB.burst - 1) :=
  getStatus_fresh_key_zero_but_first_isAllowed_allowed 7 7 "new" 1 rlTB
    (by decide) (by decide) (by decide)

/-! ## SecureCache / TokenCache (src/lib/cache.js) -/

/-- State of `class SecureCache`, specialised to a value type `Val`.

Modelled from the spec: the underlying `node-cache` store (an external
dependency, not under src/) is "a general encrypted key/value store with TTL";
it is modelled as an association list from keys to the stored ciphertext
string together with the entry's TTL in seconds. The `crypto` and JSON layers
(also external) are modelled by the fields `enc` (serialize-then-encrypt,
`JSON.stringify` composed with `encrypt`) and `dec`
(decrypt-then-deserialize, which returns `none` exactly when decryption or
`JSON.parse` of the stored record throws — corrupted payload, wrong key).
TTL-based expiry is performed inside node-cache and is not exercised by the
claims proved here. -/
structure SecureCache (Val : Type) where
  stdTTL : ℚ := 3300
  enc : Val → String
  dec : String → Option Val
  store : List (String × String × ℚ) := []

namespace SecureCache

/-- `set(key, value, ttl = null)`: serialize+encrypt and store; a `null` ttl
falls back to the cache-wide `stdTTL`. -/
def set {Val : Type} (key : String) (value : Val) (ttl : Option ℚ)
    (c : SecureCache Val) : SecureCache Val :=
  { c with store := aset key (c.enc value, ttl.getD c.stdTTL) c.store }

/-- `get(key)` (src/lib/cache.js lines 80-95): absent keys give `undefined`;
a stored record that fails to decrypt/deserialize is deleted and `undefined`
is returned instead of an error. -/
def get {Val : Type} (key : String) (c : SecureCache Val) :
    Option Val × SecureCache Val :=
  match alookup key c.store with
  | none => (none, c)
  | some (ct, _) =>
    match c.dec ct with
    | some v => (some v, c)
    | none => (none, { c with store := adel key c.store })

/-- `del(key)`. -/
def del {Val : Type} (key : String) (c : SecureCache Val) : SecureCache Val :=
  { c with store := adel key c.store }

/-- The TTL recorded for a stored key (the seconds value handed to
`cache.set`), as observed through `getTtl`. -/
def storedTtl {Val : Type} (key : String) (c : SecureCache Val) : Option ℚ :=
  (alookup key c.store).map (fun e => e.2)

end SecureCache

/-- The `{token, issuedAt, expiresAt, consumerKey}` record cached per consumer
key; the `consumerKey` field holds the SHA-256 hash of the consumer key. -/
structure TokenData where
  token : String
  issuedAt : ℚ
  expiresAt : ℚ
  consumerKey : String
  deriving Repr, DecidableEq

/-- State of `class TokenCache extends SecureCache`. The `hash` field models
`crypto.createHash('sha256')...digest('hex')` (external dependency). -/
structure TokenCache extends SecureCache TokenData where
  hash : String → String

namespace TokenCache

/-- `getTokenKey(consumerKey)`. -/
def getTokenKey (c : TokenCache) (consumerKey : String) : String :=
  "token:" ++ c.hash consumerKey

/-- `setToken(consumerKey, token, expiresIn = 3600)` (src/lib/cache.js lines
164-176): stores the token record with
`ttl = Math.max(300, expiresIn - 300)` seconds. -/
def setToken (now : ℚ) (consumerKey token : String) (expiresIn : ℚ)
    (c : TokenCache) : TokenCache :=
  let tokenData : TokenData :=
    { token := token
      issuedAt := now
      expiresAt := now + expiresIn * 1000
      consumerKey := c.hash consumerKey }
  let ttl := max 300 (expiresIn - 300)
  { c with toSecureCache :=
      SecureCache.set (c.getTokenKey consumerKey) tokenData (some ttl) c.toSecureCache }

end TokenCache

lemma alookup_eq_none_of_not_mem {β : Type} (k : String)
    (l : List (String × β)) (h : k ∉ l.map Prod.fst) : alookup k l = none := by
  induction l with
  | nil => rfl
  | cons e rest ih =>
    unfold alookup
    have h1 : e.1 ≠ k := by
      intro he
      exact h (by simp [he])
    rw [if_neg h1]
    exact ih (fun hm => h (by simp [hm]))

lemma alookup_adel_self {β : Type} (k : String) (l : List (String × β))
    (h : (l.map Prod.fst).Nodup) : alookup k (adel k l) = none := by
  induction l with
  | nil => rfl
  | cons e rest ih =>
    unfold adel
    have h' : (e.1 :: rest.map Prod.fst).Nodup := by
      simpa only [List.map_cons] using h
    obtain ⟨hnm, hrest⟩ := List.nodup_cons.mp h'
    by_cases h1 : e.1 = k
    · rw [if_pos h1]
      exact alookup_eq_none_of_not_mem k rest (h1 ▸ hnm)
    · rw [if_neg h1]
      unfold alookup
      rw [if_neg h1]
      exact ih hrest

/-- C3: for every key whose stored record fails to decrypt or deserialize,
`SecureCache.get` returns `undefined` (`none`) instead of throwing, and the
corrupted entry is deleted from the cache as a side effect (the store keys are
assumed distinct, as they are in a JavaScript `Map`-backed store). -/
theorem get_corrupted_entry_purged {Val : Type} (key : String)
    (c : SecureCache Val) (ct : String) (ttl : ℚ)
    (hnodup : (c.store.map Prod.fst).Nodup)
    (hstored : alookup key c.store = some (ct, ttl))
    (hfail : c.dec ct = none) :
    (SecureCache.get key c).1 = none ∧
      (SecureCache.get key c).2.store = adel key c.store ∧
      alookup key (SecureCache.get key c).2.store = none := by
  unfold SecureCache.get
  rw [hstored]
  dsimp only
  rw [hfail]
  exact ⟨rfl, rfl, alookup_adel_self key c.store hnodup⟩

/-- Witness for `get_corrupted_entry_purged`: a one-entry cache whose decoder
rejects the stored record. -/
theorem get_corrupted_entry_purged_witness :
    (SecureCache.get "k"
      ({ enc := fun _ => "ct", dec := fun _ => none,
         store := [("k", ("junk", 10))] } : SecureCache ℕ)).1 = none ∧
      (SecureCache.get "k"
        ({ enc := fun _ => "ct", dec := fun _ => none,
           store := [("k", ("junk", 10))] } : SecureCache ℕ)).2.store =
        adel "k" [("k", ("junk", 10))] ∧
      alookup "k" (SecureCache.get "k"
        ({ enc := fun _ => "ct", dec := fun _ => none,
           store := [("k", ("junk", 10))] } : SecureCache ℕ)).2.store = none :=
  get_corrupted_entry_purged "k" _ "junk" 10 (by simp) (by simp [alookup]) rfl

/-- C5: for every consumer key, token and `expiresIn`, `TokenCache.setToken`
stores the entry with an effective TTL of exactly `max 300 (expiresIn - 300)`
seconds; in particular `setToken(key, tok, 3600)` yields a stored TTL of
3300 seconds. -/
theorem setToken_ttl_margin :
    (∀ (now : ℚ) (consumerKey token : String) (expiresIn : ℚ) (c : TokenCache),
      SecureCache.storedTtl (c.getTokenKey consumerKey)
          (TokenCache.setToken now consumerKey token expiresIn c).toSecureCache =
        some (max 300 (expiresIn - 300))) ∧
    (∀ (now : ℚ) (consumerKey token : String) (c : TokenCache),
      SecureCache.storedTtl (c.getTokenKey consumerKey)
          (TokenCache.setToken now consumerKey token 3600 c).toSecureCache =
        some 3300) := by
  have hgen : ∀ (now : ℚ) (consumerKey token : String) (expiresIn : ℚ)
      (c : TokenCache),
      SecureCache.storedTtl (c.getTokenKey consumerKey)
          (TokenCache.setToken now consumerKey token expiresIn c).toSecureCache =
        some (max 300 (expiresIn - 300)) := by
    intro now consumerKey token expiresIn c
    unfold TokenCache.setToken SecureCache.set SecureCache.storedTtl
    dsimp only
    have : ∀ (l : List (String × String × ℚ)) (k : String) (v : String × ℚ),
        alookup k (aset k v l) = some v := by
      intro l
      induction l with
      | nil => intro k v; simp [aset, alookup]
      | cons e rest ih =>
        intro k v
        unfold aset
        by_cases h : e.1 = k
        · rw [if_pos h]
          simp [alookup]
        · rw [if_neg h]
          unfold alookup
          rw [if_neg h]
          exact ih k v
    rw [this]
    rfl
  refine ⟨hgen, ?_⟩
  intro now consumerKey token c
  rw [hgen now consumerKey token 3600 c]
  norm_num

/-! ## MetricsCollector (src/lib/monitoring.js) -/

/-- Per-key histogram record (`{values, count, sum, min, max}`); `min` starts
at `Infinity` (here `⊤`) and `max` at `-Infinity` (here `⊥`). -/
structure HistData where
  values : List ℚ := []
  count : ℕ := 0
  sum : ℚ := 0
  min : WithTop ℚ := ⊤
  max : WithBot ℚ := ⊥
  deriving DecidableEq

/-- The freshly created histogram record. -/
def emptyHistogram : HistData := {}

/-- Body of `histogram(name, value, tags)` acting on the record stored for one
metric key (src/lib/monitoring.js lines 86-96): push the sample, update the
aggregates, then trim with `values.slice(-500)` whenever the array has grown
beyond 1000 entries. -/
def recordHistogram (value : ℚ) (h : HistData) : HistData :=
  let h := { h with
    values := h.values ++ [value]
    count := h.count + 1
    sum := h.sum + value
    min := Min.min h.min (value : WithTop ℚ)
    max := Max.max h.max (value : WithBot ℚ) }
  if 1000 < h.values.length then
    { h with values := h.values.drop (h.values.length - 500) }
  else h

/-- `getMetricKey(name, tags)`: sort the tag pairs by key, join as
`k:v` with commas, and append to the name after a `|` when nonempty.
(`localeCompare` on the ASCII tag keys used by the SDK is the ordinary
lexicographic string order.) -/
def getMetricKey (name : String) (tags : List (String × String)) : String :=
  let tagString := String.intercalate ","
    ((tags.mergeSort (fun a b => decide (a.1 ≤ b.1))).map
      (fun kv => kv.1 ++ ":" ++ kv.2))
  if tagString = "" then name else name ++ "|" ++ tagString

/-- Histogram half of `class MetricsCollector` state. -/
structure MetricsCollector where
  enableHistograms : Bool := true
  histograms : List (String × HistData) := []

/-- `histogram(name, value, tags)` on the collector: no-op when histograms are
disabled; otherwise update the record at the metric key via
`recordHistogram`. -/
def MetricsCollector.histogram (name : String) (value : ℚ)
    (tags : List (String × String)) (mc : MetricsCollector) : MetricsCollector :=
  if mc.enableHistograms = false then mc
  else
    let key := getMetricKey name tags
    let h := match alookup key mc.histograms with
      | some h => h
      | none => emptyHistogram
    { mc with histograms := aset key (recordHistogram value h) mc.histograms }

/-- The record stored for one metric key after a sequence of samples, starting
from the key's first use. -/
def histAfter (vs : List ℚ) : HistData :=
  vs.foldl (fun h v => recordHistogram v h) emptyHistogram

lemma recordHistogram_values (v : ℚ) (h : HistData) :
    (recordHistogram v h).values =
      if 1000 < h.values.length + 1 then
        (h.values ++ [v]).drop (h.values.length + 1 - 500)
      else h.values ++ [v] := by
  dsimp only [recordHistogram]
  simp only [List.length_append, List.length_singleton]
  split <;> rfl

lemma histAfter_concat (vs : List ℚ) (v : ℚ) :
    histAfter (vs ++ [v]) = recordHistogram v (histAfter vs) := by
  unfold histAfter
  rw [List.foldl_concat]

lemma recordHistogram_length_of_lt (v : ℚ) (h : HistData)
    (hlen : h.values.length < 1000) :
    (recordHistogram v h).values.length = h.values.length + 1 := by
  rw [recordHistogram_values, if_neg (by omega)]
  rw [List.length_append, List.length_singleton]

lemma recordHistogram_length_of_full (v : ℚ) (h : HistData)
    (hlen : h.values.length = 1000) :
    (recordHistogram v h).values.length = 500 := by
  rw [recordHistogram_values, if_pos (by omega)]
  rw [List.length_drop, List.length_append, List.length_singleton]
  omega

lemma histAfter_replicate_length (n : ℕ) (hn : n ≤ 1000) :
    (histAfter (List.replicate n 0)).values.length = n := by
  induction n with
  | zero => rfl
  | succ m ih =>
    rw [List.replicate_succ', histAfter_concat,
      recordHistogram_length_of_lt 0 _ (by rw [ih (by omega)]; omega),
      ih (by omega)]

/-- C7 counterexample: feeding 1001 samples to one metric key leaves 500
retained values, not the most recent 1000 — the trim at the 1000-sample bound
keeps only `values.slice(-500)`. -/
theorem histogram_trim_keeps_500_not_1000 :
    (histAfter (List.replicate 1001 (0 : ℚ))).values.length = 500 ∧
      (histAfter (List.replicate 1001 (0 : ℚ))).values.length ≠ 1000 := by
  have h500 : (histAfter (List.replicate 1001 (0 : ℚ))).values.length = 500 := by
    have h1001 : (1001 : ℕ) = 1000 + 1 := by omega
    rw [h1001, List.replicate_succ', histAfter_concat,
      recordHistogram_length_of_full 0 _ (histAfter_replicate_length 1000 (by omega))]
  exact ⟨h500, by omega⟩

/-- C7 amended: the stored values array never exceeds 1000 entries after a
`histogram` call completes, and the retained samples are always a suffix (the
most recent ones) of the full recorded stream; when a push makes the array
exceed 1000 entries it is trimmed to the most recent 500 samples (not 1000). -/
theorem histogram_retention_bound (vs : List ℚ) :
    (histAfter vs).values.length ≤ 1000 ∧
      List.IsSuffix (histAfter vs).values vs := by
  induction vs using List.reverseRecOn with
  | nil => exact ⟨by norm_num [histAfter, emptyHistogram], List.nil_suffix⟩
  | append_singleton rest v ih =>
    rw [histAfter_concat]
    have hvals := recordHistogram_values v (histAfter rest)
    have hsuffix : List.IsSuffix ((histAfter rest).values ++ [v]) (rest ++ [v]) := by
      obtain ⟨t, ht⟩ := ih.2
      exact ⟨t, by rw [← List.append_assoc, ht]⟩
    constructor
    · rw [hvals]
      split
      · rw [List.length_drop, List.length_append, List.length_singleton]
        omega
      · rename_i hnot
        rw [List.length_append, List.length_singleton]
        omega
    · rw [hvals]
      split
      · exact (List.drop_suffix _ _).trans hsuffix
      · exact hsuffix

/-- One percentile of `calculatePercentiles(values)` (src/lib/monitoring.js
lines 222-235): sort the retained samples ascending (`sort((a, b) => a - b)`),
take the element at index `Math.ceil((p / 100) * n) - 1`, clamped to `≥ 0`;
indexing out of range gives `undefined` (`none`). -/
def calculatePercentile (values : List ℚ) (p : ℕ) : Option ℚ :=
  if values.length = 0 then none
  else
    let sorted := values.mergeSort (fun a b => decide (a ≤ b))
    let index : ℤ := ⌈((p : ℚ) / 100) * values.length⌉ - 1
    sorted[(max 0 index).toNat]?

/-- `calculatePercentiles(values)`: the `{p50, p75, p90, p95, p99}` record,
empty for an empty sample list. -/
def calculatePercentiles (values : List ℚ) : List (ℕ × Option ℚ) :=
  if values.length = 0 then []
  else [50, 75, 90, 95, 99].map (fun p => (p, calculatePercentile values p))

/-- The sample stream `[1..100]` of the spec's percentile test. -/
def oneToHundred : List ℚ :=
  [1, 2, 3, 4, 5, 6, 7, 8, 9, 10, 11, 12, 13, 14, 15, 16, 17, 18, 19, 20, 21, 22, 23, 24, 25, 26, 27, 28, 29, 30, 31, 32, 33, 34, 35, 36, 37, 38, 39, 40, 41, 42, 43, 44, 45, 46, 47, 48, 49, 50, 51, 52, 53, 54, 55, 56, 57, 58, 59, 60, 61, 62, 63, 64, 65, 66, 67, 68, 69, 70, 71, 72, 73, 74, 75, 76, 77, 78, 79, 80, 81, 82, 83, 84, 85, 86, 87, 88, 89, 90, 91, 92, 93, 94, 95, 96, 97, 98, 99, 100]

lemma oneToHundred_sorted : List.Sorted (· ≤ ·) oneToHundred := by
  unfold oneToHundred
  decide

/-- C8: for every non-empty list of retained histogram samples of length `n`
and every percentile rank `0 < p ≤ 100` (so in particular for
`p ∈ {50, 75, 90, 95, 99}`), the reported percentile is the element at index
`(max 0 (⌈p/100 * n⌉ - 1)).toNat` of the ascending sort of the samples
(nearest-rank, no interpolation); in particular for samples `[1..100]`,
`p50 = 50`. -/
theorem percentile_nearest_rank :
    (∀ (values : List ℚ) (p : ℕ), values ≠ [] → 0 < p → p ≤ 100 →
      ∃ h : (max 0 (⌈((p : ℚ) / 100) * values.length⌉ - 1)).toNat <
          (values.mergeSort (fun a b => decide (a ≤ b))).length,
        calculatePercentile values p =
          some ((values.mergeSort (fun a b => decide (a ≤ b))).get
            ⟨(max 0 (⌈((p : ℚ) / 100) * values.length⌉ - 1)).toNat, h⟩)) ∧
    calculatePercentile oneToHundred 50 = some 50 := by
  constructor
  · intro values p hne hp0 hp100
    have hn : 0 < values.length := List.length_pos.mpr hne
    have hnQ : (0 : ℚ) < (values.length : ℚ) := by exact_mod_cast hn
    have hceil_pos : 0 < ⌈((p : ℚ) / 100) * values.length⌉ := by
      rw [Int.ceil_pos]
      have hpQ : (0 : ℚ) < (p : ℚ) := by exact_mod_cast hp0
      positivity
    have hceil_le : ⌈((p : ℚ) / 100) * values.length⌉ ≤ (values.length : ℤ) := by
      rw [Int.ceil_le]
      have hle1 : ((p : ℚ) / 100) ≤ 1 := by
        rw [div_le_one (by norm_num)]
        exact_mod_cast hp100
      calc ((p : ℚ) / 100) * values.length ≤ 1 * values.length := by
            exact mul_le_mul_of_nonneg_right hle1 (le_of_lt hnQ)
        _ = ((values.length : ℤ) : ℚ) := by push_cast; ring
    have hidx : (max 0 (⌈((p : ℚ) / 100) * values.length⌉ - 1)).toNat <
        (values.mergeSort (fun a b => decide (a ≤ b))).length := by
      rw [List.length_mergeSort]
      have hmax : max 0 (⌈((p : ℚ) / 100) * values.length⌉ - 1) =
          ⌈((p : ℚ) / 100) * values.length⌉ - 1 := by omega
      rw [hmax, Int.toNat_lt (by omega)]
      omega
    refine ⟨hidx, ?_⟩
    unfold calculatePercentile
    rw [if_neg (by omega)]
    dsimp only
    rw [List.getElem?_eq_getElem hidx]
    rfl
  · unfold calculatePercentile
    rw [if_neg (by decide)]
    dsimp only
    rw [List.mergeSort_eq_self oneToHundred_sorted]
    have hlen : ((oneToHundred.length : ℕ) : ℚ) = 100 := by
      norm_num [oneToHundred]
    rw [hlen]
    have hidx : (max 0 (⌈((50 : ℕ) : ℚ) / 100 * 100⌉ - 1)).toNat = 49 := by
      norm_num
      rfl
    rw [hidx]
    decide

/-- Witness for `percentile_nearest_rank` at the concrete sample list
`[3, 1, 2]` and `p = 50`. -/
theorem percentile_nearest_rank_witness :
    ∃ h : (max 0 (⌈((50 : ℕ) : ℚ) / 100 * ([3, 1, 2] : List ℚ).length⌉ - 1)).toNat <
        (([3, 1, 2] : List ℚ).mergeSort (fun a b => decide (a ≤ b))).length,
      calculatePercentile [3, 1, 2] 50 =
        some ((([3, 1, 2] : List ℚ).mergeSort (fun a b => decide (a ≤ b))).get
          ⟨(max 0 (⌈((50 : ℕ) : ℚ) / 100 * ([3, 1, 2] : List ℚ).length⌉ - 1)).toNat, h⟩) :=
  percentile_nearest_rank.1 [3, 1, 2] 50 (by simp) (by norm_num) (by norm_num)


/-! ## PesakitCircuitBreaker (src/lib/circuit-breaker.js)

The wrapper class lives in src/; the generic breaker it instantiates is the
external `opossum` dependency (not under src/), whose behaviour is modelled
from the spec (sections 2-4.2): a per-endpoint finite-state machine over
CLOSED/OPEN/HALF_OPEN that records rolling error/success statistics for every
`fire`d call, rejects immediately while OPEN until `resetTimeout` elapses,
then allows a single HALF_OPEN trial whose success closes (and whose failure
re-opens) the breaker. Two modelling notes: the rolling time-bucketed window
is abstracted to cumulative counts, since the claims proved here concern only
whether a given call is recorded and how OPEN short-circuits; and nothing of
the src classifier is handed to the generic breaker — the constructed
`breakerOptions` contain no error filter, so the generic breaker observes
only whether the fired action rejected.
-/

/-- State names of the breaker finite-state machine. -/
inductive BreakerState where
  | closed
  | opened
  | halfOpen
  deriving Repr, DecidableEq

/-- Constructor options of `PesakitCircuitBreaker` (src/lib/circuit-breaker.js
lines 8-29), with the source's defaults. -/
structure BreakerOptions where
  timeout : ℚ := 30000
  errorThresholdPercentage : ℚ := 50
  resetTimeout : ℚ := 60000
  volumeThreshold : ℕ := 10
  monitoringPeriod : ℚ := 10000
  enabled : Bool := true
  deriving Repr, DecidableEq

/-- Rolling error/success counts of one breaker (see the modelling note
above). -/
structure BreakerStats where
  failures : ℕ := 0
  successes : ℕ := 0
  deriving Repr, DecidableEq

/-- One per-endpoint breaker instance. -/
structure Breaker where
  opts : BreakerOptions := {}
  state : BreakerState := .closed
  openedAt : ℚ := 0
  stats : BreakerStats := {}
  deriving Repr, DecidableEq

/-- Outcome of firing one call through a breaker: the result, the updated
breaker, and whether the supplied work function was invoked. -/
structure FireResult (α : Type) where
  result : Except JsError α
  breaker : Breaker
  workInvoked : Bool

/-- Modelled from the spec: the error with which the generic opossum breaker
rejects a `fire` while OPEN (before the src wrapper replaces it). -/
def openCircuitError : JsError :=
  { name := "Error", message := "Breaker is open", code := some "EOPENBREAKER" }

/-- Modelled from the spec: record one failed fire and open the breaker when
the error percentage exceeds `errorThresholdPercentage` with at least
`volumeThreshold` observed calls. -/
def recordFailure (now : ℚ) (br : Breaker) : Breaker :=
  let stats := { br.stats with failures := br.stats.failures + 1 }
  let total := stats.failures + stats.successes
  if br.opts.volumeThreshold ≤ total ∧
      br.opts.errorThresholdPercentage * total < (stats.failures : ℚ) * 100 then
    { br with stats := stats, state := .opened, openedAt := now }
  else
    { br with stats := stats }

/-- Modelled from the spec: record one successful fire. -/
def recordSuccess (br : Breaker) : Breaker :=
  { br with stats := { br.stats with successes := br.stats.successes + 1 } }

/-- Modelled from the spec: the single HALF_OPEN trial call — success closes
the breaker (resetting its rolling statistics); failure re-opens it and
restarts the `resetTimeout` clock. -/
def runTrial {α : Type} (now : ℚ) (work : Except JsError α) (br : Breaker) :
    FireResult α :=
  match work with
  | .ok v => ⟨.ok v, { br with state := .closed, stats := {} }, true⟩
  | .error e => ⟨.error e, { br with state := .opened, openedAt := now }, true⟩

/-- Modelled from the spec: `breaker.fire(action, ...)` of the generic opossum
breaker. While OPEN and within `resetTimeout` of opening, reject with
`openCircuitError` without invoking the action; after `resetTimeout`, or when
HALF_OPEN, run the single trial; when CLOSED, run the action and record its
outcome in the rolling statistics — every rejected action counts as a
failure, since the breaker is given no error filter. -/
def fire {α : Type} (now : ℚ) (work : Except JsError α) (br : Breaker) :
    FireResult α :=
  match br.state with
  | .opened =>
    if now < br.openedAt + br.opts.resetTimeout then
      ⟨.error openCircuitError, br, false⟩
    else
      runTrial now work br
  | .halfOpen => runTrial now work br
  | .closed =>
    match work with
    | .ok v => ⟨.ok v, recordSuccess br, true⟩
    | .error e => ⟨.error e, recordFailure now br, true⟩

/-- `isRetryableError(error)` (src/lib/circuit-breaker.js lines 82-103):
network error codes, HTTP 5xx/429/408 response statuses, and rate-limit
errors trigger the breaker; everything else does not. An absent
`error.response` makes the status checks false, as in the source. -/
def isRetryableError (e : JsError) : Bool :=
  if e.code = some "ECONNRESET" ∨ e.code = some "ENOTFOUND" ∨
      e.code = some "ECONNREFUSED" ∨ e.code = some "ETIMEDOUT" then
    true
  else if (e.respStatus.elim false
      (fun status => decide (500 ≤ status) || decide (status = 429) ||
        decide (status = 408))) = true then
    true
  else if e.code = some "RATE_LIMIT_ERROR" then
    true
  else
    false

/-- The `NetworkError` fabricated by `executeRequest` for a classifier-positive
error, carrying `{originalError, code, statusCode}` details. -/
def networkWrapError (e : JsError) : JsError :=
  { networkError "Circuit breaker detected retryable error" with
    detailOriginalError := some e.message
    detailCode := e.code
    detailStatusCode := e.respStatus }

/-- `executeRequest(requestFn, ...)` (src/lib/circuit-breaker.js lines 64-77):
run the work; a classifier-positive failure is re-thrown wrapped as a
`NetworkError`, any other failure is re-thrown unmodified. The work function
is modelled by its outcome. -/
def executeRequest {α : Type} (work : Except JsError α) : Except JsError α :=
  match work with
  | .ok v => .ok v
  | .error e =>
    if isRetryableError e then .error (networkWrapError e) else .error e

/-- State of `class PesakitCircuitBreaker`: the shared options and the
per-endpoint breaker map. -/
structure PesakitCircuitBreaker where
  options : BreakerOptions := {}
  breakers : List (String × Breaker) := []
  deriving Repr, DecidableEq

/-- Outcome of `protect`: result, updated wrapper state, and whether the work
function was invoked. -/
structure ProtectResult (α : Type) where
  result : Except JsError α
  pcb : PesakitCircuitBreaker
  workInvoked : Bool

/-- The `NetworkError` thrown by `protect` when the breaker is open:
`state: 'OPEN'` and `nextAttempt = now + resetTimeout`. -/
def breakerOpenError (endpoint : String) (now resetTimeout : ℚ) : JsError :=
  { networkError ("Circuit breaker is OPEN for " ++ endpoint) with
    detailState := some "OPEN"
    detailNextAttempt := some (now + resetTimeout) }

/-- `protect(endpoint, requestFn, ...)` (src/lib/circuit-breaker.js lines
108-137): run `work` directly when disabled; otherwise fire
`executeRequest(work)` through the endpoint's breaker (created on first use
with the shared options, as in `getBreaker`); if the call failed and the
breaker is now open, replace the error by `breakerOpenError`; otherwise
re-throw the error unchanged (the source's dedicated 401 branch and its
fall-through both re-throw the original error). -/
def protect {α : Type} (now : ℚ) (endpoint : String) (work : Except JsError α)
    (pcb : PesakitCircuitBreaker) : ProtectResult α :=
  if pcb.options.enabled = false then ⟨work, pcb, true⟩
  else
    let br :=
      match alookup endpoint pcb.breakers with
      | some b => b
      | none => { opts := pcb.options }
    let r := fire now (executeRequest work) br
    let pcb' := { pcb with breakers := aset endpoint r.breaker pcb.breakers }
    match r.result with
    | .ok v => ⟨.ok v, pcb', r.workInvoked⟩
    | .error e =>
      if r.breaker.state = .opened then
        ⟨.error (breakerOpenError endpoint now pcb.options.resetTimeout), pcb',
          r.workInvoked⟩
      else ⟨.error e, pcb', r.workInvoked⟩

/-- The duck-typed error an axios HTTP 401 rejection exposes
(`error.response.status = 401`). -/
def err401 : JsError := { respStatus := some 401 }

/-- C2: for every enabled breaker in the OPEN state (within `resetTimeout` of
opening, i.e. while it remains OPEN), `protect(endpoint, work, ...)` fails
with a `NetworkError` carrying `state: 'OPEN'` and a `nextAttempt` time, and
the supplied work function is not invoked. -/
theorem protect_open_fails_without_invoking_work {α : Type} (now : ℚ)
    (endpoint : String) (work : Except JsError α) (pcb : PesakitCircuitBreaker)
    (br : Breaker)
    (hen : pcb.options.enabled = true)
    (hbr : alookup endpoint pcb.breakers = some br)
    (hopen : br.state = .opened)
    (hwait : now < br.openedAt + br.opts.resetTimeout) :
    (protect now endpoint work pcb).result =
      .error (breakerOpenError endpoint now pcb.options.resetTimeout) ∧
    (breakerOpenError endpoint now pcb.options.resetTimeout).name = "NetworkError" ∧
    (breakerOpenError endpoint now pcb.options.resetTimeout).detailState =
      some "OPEN" ∧
    (breakerOpenError endpoint now pcb.options.resetTimeout).detailNextAttempt =
      some (now + pcb.options.resetTimeout) ∧
    (protect now endpoint work pcb).workInvoked = false := by
  unfold protect
  rw [hen]
  simp only [Bool.true_eq_false, if_false, hbr]
  unfold fire
  simp only [hopen, if_pos hwait]
  exact ⟨rfl, rfl, rfl, rfl, rfl⟩

/-- Witness for `protect_open_fails_without_invoking_work` at a concrete open
breaker. -/
theorem protect_open_fails_witness :
    (protect 1000 "pay" (Except.ok (0 : ℚ))
      { breakers := [("pay", { state := .opened, openedAt := 0 })] }).result =
      .error (breakerOpenError "pay" 1000
        ({} : PesakitCircuitBreaker).options.resetTimeout) ∧
    (breakerOpenError "pay" 1000
        ({} : PesakitCircuitBreaker).options.resetTimeout).name = "NetworkError" ∧
    (breakerOpenError "pay" 1000
        ({} : PesakitCircuitBreaker).options.resetTimeout).detailState =
      some "OPEN" ∧
    (breakerOpenError "pay" 1000
        ({} : PesakitCircuitBreaker).options.resetTimeout).detailNextAttempt =
      some (1000 + ({} : PesakitCircuitBreaker).options.resetTimeout) ∧
    (protect 1000 "pay" (Except.ok (0 : ℚ))
      { breakers := [("pay", { state := .opened, openedAt := 0 })] }).workInvoked =
      false := by
  have h := protect_open_fails_without_invoking_work 1000 "pay"
    (Except.ok (0 : ℚ))
    { breakers := [("pay", { state := .opened, openedAt := 0 })] }
    { state := .opened, openedAt := 0 }
    (by decide) (by decide) (by decide) (by norm_num)
  exact h

/-- C1 (claim evaluated at its failing input): a work rejection with HTTP 401
is classifier-negative, so `protect` re-throws it to the caller unmodified —
but the fire is still recorded as a failure in the breaker's rolling
statistics (failures becomes 1 on a fresh breaker), contradicting the claim
that classifier-negative errors leave the breaker's open/close statistics
unchanged. -/
theorem protect_401_passthrough_but_counted :
    isRetryableError err401 = false ∧
    (protect 0 "auth" (Except.error err401 : Except JsError Unit) {}).result =
      .error err401 ∧
    ((alookup "auth"
        (protect 0 "auth" (Except.error err401 : Except JsError Unit) {}).pcb.breakers).map
      (fun b => b.stats.failures)) = some 1 := by
  exact ⟨rfl, rfl, rfl⟩


end Pesakit
